import Mathlib

/-!
Verification development for the TOEIC AI speaking-turn evaluation service.

This file gives a shallow embedding, in Lean, of the pure computational core of
the service:

* the word-alignment step and the accuracy / fluency / completeness score
  aggregation of `app/utils/azure_speech.py` (`pronunciation_assessment_from_file`),
* the intonation scorer of `app/utils/intonation_utils.py`
  (`calculate_intonation_score`),
* the transcript-similarity gate and TTS parameter derivation of
  `app/services/chat_service.py`,
* the grammar/reply LLM wrappers of `app/utils/gemini_client.py`, and
* the turn orchestrator of `app/routers/chat_router.py` (`process_chat_turn`).

External collaborators (the Azure recognizer, the pitch extractor, the Gemini
models, speech synthesis) are modelled as oracle inputs: the embedding receives
the data those collaborators would return and tracks which of them the
orchestrator invokes.  Python floats are modelled as rationals; Python code
that can raise is modelled with `Option` (`none` = an exception escapes).
-/

namespace ToeicAI

/-! ## String helpers (models of Python `str` methods used by the service) -/

/-- Model of Python whitespace for `str.strip()` / `str.split()`
(ASCII whitespace characters). -/
def pyIsSpace (c : Char) : Bool :=
  c == ' ' || c == '\t' || c == '\n' || c == '\r' || c == '\u000B' || c == '\u000C'

/-- Model of Python `s.strip()`: drop leading and trailing whitespace. -/
def pyStrip (s : String) : String :=
  ⟨((s.data.dropWhile pyIsSpace).reverse.dropWhile pyIsSpace).reverse⟩

/-- Model of Python `s.lower()` (simple per-character lowercasing). -/
def lowerStr (s : String) : String :=
  ⟨s.data.map Char.toLower⟩

/-- The characters of Python `string.punctuation`. -/
def pyPunctChars : List Char :=
  ['!', '"', '#', '$', '%', '&', '\u0027', '(', ')', '*', '+', ',', '-', '.',
   '/', ':', ';', '<', '=', '>', '?', '@', '[', '\\', ']', '^', '_', '\u0060',
   '\u007B', '|', '\u007D', '~']

def isPyPunct (c : Char) : Bool := pyPunctChars.contains c

/-- Model of Python `s.strip(string.punctuation)`. -/
def stripPunct (s : String) : String :=
  ⟨((s.data.dropWhile isPyPunct).reverse.dropWhile isPyPunct).reverse⟩

/-- Model of Python `s.split()` (no argument): maximal runs of
non-whitespace characters, so runs of whitespace collapse and there are no
empty words.  `acc` is the current in-progress word, reversed. -/
def pySplitAux : List Char → List Char → List String
  | [], [] => []
  | [], acc => [⟨acc.reverse⟩]
  | c :: cs, acc =>
    if pyIsSpace c then
      match acc with
      | [] => pySplitAux cs []
      | _ => ⟨acc.reverse⟩ :: pySplitAux cs []
    else pySplitAux cs (c :: acc)

def pySplit (s : String) : List String := pySplitAux s.data []

/-- `[w.strip(string.punctuation) for w in reference_text.lower().split()]`
from `pronunciation_assessment_from_file`. -/
def referenceWordsOf (reference_text : String) : List String :=
  (pySplit (lowerStr reference_text)).map stripPunct

/-! ## Word data

One aligned/recognized word, modelling the fields of Azure's
`PronunciationAssessmentWordResult` that the service reads: the word text,
its accuracy score and its error type (a string: `"None"`, `"Insertion"`,
`"Omission"`, `"Mispronunciation"`, ...). -/

structure AWord where
  word : String
  accuracy_score : ℚ
  error_type : String
deriving DecidableEq

/-! ## Model of `difflib.SequenceMatcher`

`pronunciation_assessment_from_file` aligns the reference words against the
recognized word texts with `difflib.SequenceMatcher` and
`calculate_transcript_similarity` uses its `ratio()` on character sequences.
The model below implements the documented semantics of the stdlib matcher
(no junk; the autojunk heuristic, which only affects second sequences of
length >= 200, is not modelled):

* `find_longest_match` returns, among all maximal matching blocks of the two
  windows, the one starting earliest in `a`, and of those the one starting
  earliest in `b`;
* `get_matching_blocks` recursively splits around the longest match, merges
  adjacent blocks and appends the `(len(a), len(b), 0)` sentinel;
* `get_opcodes` walks the matching blocks emitting
  `replace`/`delete`/`insert`/`equal` ranges;
* `ratio()` is `2 * (total matched size) / (len(a) + len(b))`.
-/

/-- A matching block `(i, j, size)`. -/
abbrev Block := ℕ × ℕ × ℕ

/-- Length of the common run of `a` and `b` starting at positions `i`, `j`,
capped at `bound`. -/
def matchLenFrom {α : Type} [DecidableEq α] (a b : List α) : ℕ → ℕ → ℕ → ℕ
  | _, _, 0 => 0
  | i, j, bound + 1 =>
    match a[i]?, b[j]? with
    | some x, some y =>
      if x = y then matchLenFrom a b (i + 1) (j + 1) bound + 1 else 0
    | _, _ => 0

/-- `find_longest_match(alo, ahi, blo, bhi)`: the longest matching block of
`a[alo:ahi]` and `b[blo:bhi]`; ties go to the earliest start in `a`, then the
earliest start in `b` (the fold only replaces the current best on a strictly
longer match, and scans starts in lexicographic order). -/
def findLongestMatch {α : Type} [DecidableEq α] (a b : List α)
    (alo ahi blo bhi : ℕ) : Block :=
  (List.range' alo (ahi - alo)).foldl
    (fun best i =>
      (List.range' blo (bhi - blo)).foldl
        (fun best j =>
          let k := matchLenFrom a b i j (min (ahi - i) (bhi - j))
          if best.2.2 < k then (i, j, k) else best)
        best)
    (alo, blo, 0)

/-- Recursive block collection of `get_matching_blocks`, in cursor order
(recurse left of the longest match, emit it, recurse right).  The recursion
is driven by `fuel`; each recursive call strictly shrinks the total size
`(ahi - alo) + (bhi - blo)` of the window, so the initial fuel
`(ahi - alo) + (bhi - blo)` always suffices. -/
def matchingBlocksAux {α : Type} [DecidableEq α] (a b : List α) :
    ℕ → ℕ → ℕ → ℕ → ℕ → List Block
  | 0, _, _, _, _ => []
  | fuel + 1, alo, ahi, blo, bhi =>
    let m := findLongestMatch a b alo ahi blo bhi
    if 0 < m.2.2 then
      matchingBlocksAux a b fuel alo m.1 blo m.2.1 ++
        m :: matchingBlocksAux a b fuel (m.1 + m.2.2) ahi (m.2.1 + m.2.2) bhi
    else []

/-- The adjacent-block merging pass of `get_matching_blocks`:
`(i1, j1, k1)` is the pending block (initially the dummy `(0, 0, 0)`), and a
next block that starts exactly at its end is absorbed into it. -/
def mergeBlocksAux : ℕ → ℕ → ℕ → List Block → List Block
  | i1, j1, k1, [] => if k1 ≠ 0 then [(i1, j1, k1)] else []
  | i1, j1, k1, (i2, j2, k2) :: rest =>
    if i1 + k1 = i2 ∧ j1 + k1 = j2 then
      mergeBlocksAux i1 j1 (k1 + k2) rest
    else
      (if k1 ≠ 0 then [(i1, j1, k1)] else []) ++ mergeBlocksAux i2 j2 k2 rest

/-- `get_matching_blocks()`: merged blocks plus the final sentinel
`(len(a), len(b), 0)`. -/
def getMatchingBlocks {α : Type} [DecidableEq α] (a b : List α) : List Block :=
  mergeBlocksAux 0 0 0
      (matchingBlocksAux a b (a.length + b.length) 0 a.length 0 b.length)
    ++ [(a.length, b.length, 0)]

inductive Tag | replace | delete | insert | equal
deriving DecidableEq

structure Opcode where
  tag : Tag
  i1 : ℕ
  i2 : ℕ
  j1 : ℕ
  j2 : ℕ
deriving DecidableEq

/-- `get_opcodes()`: walk the matching blocks with a cursor `(i, j)`; emit a
`replace`/`delete`/`insert` opcode for the gap before each block and an
`equal` opcode for the block itself when its size is nonzero. -/
def getOpcodesAux : ℕ → ℕ → List Block → List Opcode
  | _, _, [] => []
  | i, j, (ai, bj, size) :: rest =>
    (if i < ai ∧ j < bj then [⟨Tag.replace, i, ai, j, bj⟩]
     else if i < ai then [⟨Tag.delete, i, ai, j, bj⟩]
     else if j < bj then [⟨Tag.insert, i, ai, j, bj⟩]
     else []) ++
    (if size ≠ 0 then [⟨Tag.equal, ai, ai + size, bj, bj + size⟩] else []) ++
    getOpcodesAux (ai + size) (bj + size) rest

def getOpcodes {α : Type} [DecidableEq α] (a b : List α) : List Opcode :=
  getOpcodesAux 0 0 (getMatchingBlocks a b)

/-- Total matched size over all matching blocks (the sentinel contributes 0). -/
def smMatchSum {α : Type} [DecidableEq α] (a b : List α) : ℕ :=
  ((getMatchingBlocks a b).map fun m => m.2.2).sum

/-- `SequenceMatcher.ratio()`: `2 * matches / (len(a) + len(b))`, and `1.0`
when both sequences are empty. -/
def smRatioOf {α : Type} [DecidableEq α] (a b : List α) : ℚ :=
  if a.length + b.length = 0 then 1
  else 2 * (smMatchSum a b : ℚ) / ((a.length : ℚ) + (b.length : ℚ))

/-- `calculate_transcript_similarity` from `app/services/chat_service.py`:
`SequenceMatcher(None, text1.lower(), text2.lower()).ratio()`. -/
def calculate_transcript_similarity (text1 text2 : String) : ℚ :=
  smRatioOf (lowerStr text1).data (lowerStr text2).data

/-! ## The alignment loop of `pronunciation_assessment_from_file` -/

/-- Python slice `l[i1:i2]` (for `i1 ≤ i2`). -/
def sliceL {α : Type} (l : List α) (i1 i2 : ℕ) : List α :=
  (l.drop i1).take (i2 - i1)

/-- The in-place override of the alignment loop: a recognized word in an
`insert`/`replace` range whose `error_type` is `"None"` becomes an
`"Insertion"`; any other error type is left unchanged. -/
def markInsertion (w : AWord) : AWord :=
  if w.error_type = "None" then { w with error_type := "Insertion" } else w

/-- The synthesized `Word` for an omitted reference word: Azure's
`PronunciationAssessmentWordResult` built from a JSON dict without an
`AccuracyScore` defaults that score to `0.0`. -/
def omissionWord (t : String) : AWord :=
  ⟨t, 0, "Omission"⟩

/-- The `for tag, i1, i2, j1, j2 in diff.get_opcodes()` loop building
`final_words`: `insert`/`replace` ranges append the recognized words with the
`"None" -> "Insertion"` override, `delete`/`replace` ranges append synthesized
omission words for the reference words, `equal` ranges append the recognized
words unchanged. -/
def finalWordsOfOpcodes (refW : List String) (recW : List AWord) :
    List Opcode → List AWord
  | [] => []
  | op :: rest =>
    (if op.tag = Tag.insert ∨ op.tag = Tag.replace then
        (sliceL recW op.j1 op.j2).map markInsertion
      else []) ++
    (if op.tag = Tag.delete ∨ op.tag = Tag.replace then
        (sliceL refW op.i1 op.i2).map omissionWord
      else []) ++
    (if op.tag = Tag.equal then sliceL recW op.j1 op.j2 else []) ++
    finalWordsOfOpcodes refW recW rest

/-- The aligned word sequence: diff the reference words against the
lower-cased recognized word texts and run the alignment loop. -/
def finalWords (refW : List String) (recW : List AWord) : List AWord :=
  finalWordsOfOpcodes refW recW
    (getOpcodes refW (recW.map fun w => lowerStr w.word))

/-- Number of words in `ws` with the given error type. -/
def countErrorType (ws : List AWord) (t : String) : ℕ :=
  ws.countP fun w => w.error_type == t

/-- Number of matched words: words carrying neither an `"Insertion"` nor an
`"Omission"` error type. -/
def matchedCount (ws : List AWord) : ℕ :=
  ws.countP fun w => w.error_type != "Insertion" && w.error_type != "Omission"

/-! ## Score aggregation of `pronunciation_assessment_from_file`

The three reductions after the alignment loop.  Each is `Option`-valued:
`none` models a `ZeroDivisionError` escaping the function. -/

/-- `final_accuracy_scores = [w.accuracy_score for w in final_words if
w.error_type != "Insertion"]; accuracy_score = sum(...) / len(...)`.
The division raises (`none`) when the list is empty. -/
def paAccuracyScore (final_words : List AWord) : Option ℚ :=
  let final_accuracy_scores :=
    (final_words.filter fun w => w.error_type != "Insertion").map
      fun w => w.accuracy_score
  if final_accuracy_scores = [] then none
  else some (final_accuracy_scores.sum / (final_accuracy_scores.length : ℚ))

/-- `fluency_score = sum(x * y for x, y in zip(fluency_scores, durations)) /
sum(durations)`.  The division raises (`none`) when the total duration is 0. -/
def paFluencyScore (fluency_scores : List ℚ) (durations : List ℕ) : Option ℚ :=
  if durations.sum = 0 then none
  else some ((List.zipWith (fun x y => x * (y : ℚ)) fluency_scores durations).sum /
    (durations.sum : ℚ))

/-- The completeness computation.  In the source it counts
`w.error_type == "None"` over `recognized_words` after the alignment loop has
already overridden, in place, every `"None"` word inside an `insert`/`replace`
range to `"Insertion"` (the list holds the same mutated objects that were
appended to `final_words`).  The mutated recognized words are exactly the
non-synthesized words of `final_words`, and the synthesized omission words
never carry `"None"`, so the count equals the `"None"`-count of `final_words`,
which is how the pure model states it.  Divides by the reference word count
(`none` models the raise when it is 0) and clamps the result to at most 100. -/
def paCompletenessScore (final_words : List AWord) (referenceWordCount : ℕ) :
    Option ℚ :=
  if referenceWordCount = 0 then none
  else
    let c := (countErrorType final_words "None" : ℚ) /
      (referenceWordCount : ℚ) * 100
    some (if c ≤ 100 then c else 100)

/-- The pure core of `pronunciation_assessment_from_file`: given the reference
text and the data delivered by the recognizer callbacks (`recognized_words`,
`fluency_scores`, `durations`), align and aggregate.  Returns
`(accuracy, completeness, fluency, final_words)`; `none` models a
`ZeroDivisionError` escaping the function. -/
def pronunciation_assessment_from_file (reference_text : String)
    (recognized_words : List AWord) (fluency_scores : List ℚ)
    (durations : List ℕ) : Option (ℚ × ℚ × ℚ × List AWord) :=
  let reference_words := referenceWordsOf reference_text
  let final_words := finalWords reference_words recognized_words
  match paAccuracyScore final_words, paFluencyScore fluency_scores durations,
      paCompletenessScore final_words reference_words.length with
  | some accuracy, some fluency, some completeness =>
    some (accuracy, completeness, fluency, final_words)
  | _, _, _ => none

/-! ## Intonation scorer (`app/utils/intonation_utils.py`) -/

/-- Python `round(x, 1)` (modelled with Mathlib rounding; the difference from
Python's round-half-to-even only shows on exact midpoints). -/
def round1 (x : ℚ) : ℚ := ((round (x * 10) : ℤ) : ℚ) / 10

/-- `_score_from_percent`: 100 inside the ideal band, a linear ramp below it,
and a gentle penalty of at most 50 points above it. -/
def score_from_percent (percent ideal_min ideal_max : ℚ) : ℚ :=
  if ideal_min ≤ percent ∧ percent ≤ ideal_max then 100
  else if percent < ideal_min then max 0 (100 * (percent / ideal_min))
  else max 0 (100 - min 50 ((percent - ideal_max) / 2))

/-- The pitch-extraction outcome for one audio file, as consumed by
`calculate_intonation_score`:

* `stats`: the primary Praat extraction succeeded with finite mean/min/max/std;
* `fallback`: the primary extraction raised and the simple `to_pitch`
  frequency array of the fallback path was obtained;
* `broken`: both extractions raised. -/
inductive AudioPitch
  | stats (mean_f0 min_f0 max_f0 std_f0 : ℚ)
  | fallback (values : List ℚ)
  | broken

/-- `calculate_intonation_score`: primary model against the native reference
constants (mean 130 Hz, range 70 Hz, std 30 Hz), weighted 0.7 range / 0.3 std;
on extraction failure the fallback maps the mean nonzero pitch linearly from
[80 Hz, 300 Hz] to [0, 100]; if that fails too, 0. -/
def calculate_intonation_score : AudioPitch → ℚ
  | .stats _mean_f0 min_f0 max_f0 std_f0 =>
    let user_range := max_f0 - min_f0
    let native_range : ℚ := 70
    let native_std : ℚ := 30
    let pitch_range_percent :=
      if 0 < native_range then user_range / native_range * 100 else 0
    let pitch_std_percent :=
      if 0 < native_std then std_f0 / native_std * 100 else 0
    let range_score := score_from_percent pitch_range_percent 80 120
    let std_score := score_from_percent pitch_std_percent 70 130
    round1 (range_score * (7 / 10) + std_score * (3 / 10))
  | .fallback values =>
    let non_zero := values.filter fun x => x != 0
    let overall_pitch :=
      if non_zero = [] then 0 else non_zero.sum / (non_zero.length : ℚ)
    if overall_pitch ≤ 0 then 0
    else
      let r := (overall_pitch - 80) / (300 - 80)
      let r := max 0 (min 1 r)
      round1 (r * 100)
  | .broken => 0

/-! ## Gemini wrappers (`app/utils/gemini_client.py`)

The Gemini API itself is external; the model receives the *outcome* of the
candidate-model loop plus JSON parsing as an oracle value and reproduces the
branching of the wrapper around it. -/

structure Mistake where
  original : String
  correction : String
  type : String
  explanation : String
deriving DecidableEq

/-- Outcome of the grammar call: every candidate model failed, the response
did not parse as JSON, the surrounding call raised, or a parsed payload
(score, overall feedback, mistakes, translation — already extracted and
stringified the way the wrapper does). -/
inductive GrammarLLMResult
  | allFailed
  | parseError
  | callError
  | parsed (grammar_score : ℚ) (overall_feedback : String)
      (mistakes : List Mistake) (user_translation : String)

/-- `grammar_feedback_from_gemini`: returns
`(grammar_score, improvement_tip, mistakes, user_translation)` with the
documented degraded defaults on each failure branch and the parsed score
clamped into [0, 100]. -/
def grammar_feedback_from_gemini (transcript : String)
    (llm : GrammarLLMResult) : ℚ × String × List Mistake × String :=
  if pyStrip transcript = "" then
    (0, "No transcript provided for grammar evaluation.", [], "")
  else
    match llm with
    | .allFailed => (0, "No grammar feedback due to a model error.", [], "")
    | .parseError =>
      (50, "I could not reliably parse the grammar feedback.", [], "")
    | .callError => (0, "No grammar feedback due to a model error.", [], "")
    | .parsed grammar_score overall_feedback mistakes user_translation =>
      (max 0 (min 100 grammar_score), overall_feedback, mistakes,
        user_translation)

/-- Outcome of the conversational-reply call: all candidates failed, the
response did not parse, or a parsed payload (`bot_text`, `bot_translation`,
already stripped the way the wrapper strips them). -/
inductive ReplyLLMResult
  | allFailed
  | parseError
  | parsed (bot_text bot_translation : String)

/-- `generate_gemini_response`: the fixed "trouble responding" pair on any
failure, and the parsed pair otherwise, each component replaced by the fixed
fallback when empty. -/
def generate_gemini_response (llm : ReplyLLMResult) : String × String :=
  match llm with
  | .allFailed =>
    ("I\u0027m having trouble responding right now. Please try again.",
     "Tôi đang gặp sự cố khi trả lời. Vui lòng thử lại sau.")
  | .parseError =>
    ("I\u0027m having trouble responding right now. Please try again.",
     "Tôi đang gặp sự cố khi trả lời. Vui lòng thử lại sau.")
  | .parsed bot_text bot_translation =>
    (if bot_text = ""
      then "I\u0027m having trouble responding right now. Please try again."
      else bot_text,
     if bot_translation = ""
      then "Tôi đang gặp sự cố khi trả lời. Vui lòng thử lại sau."
      else bot_translation)

/-! ## Chat service (`app/services/chat_service.py`) -/

structure SpeakingConfig where
  scenario : Option String := none
  level : Option String := none
  userRole : Option String := none
  botTone : Option String := none
  goal : Option String := none
  durationMinutes : Option Int := none
  botSpeed : Option String := none
deriving DecidableEq

/-- `get_tts_voice_from_tone`: the tone → Azure voice lookup table with the
`en-US-AriaNeural` default. -/
def get_tts_voice_from_tone (bot_tone : String) : String :=
  if bot_tone = "Friendly & Encouraging" then "en-US-JennyNeural"
  else if bot_tone = "Professional & Formal" then "en-US-GuyNeural"
  else if bot_tone = "Strict & Correction-focused" then "en-US-DavisNeural"
  else if bot_tone = "Funny & Casual" then "en-US-JasonNeural"
  else if bot_tone = "Fast Native Speaker" then "en-US-SaraNeural"
  else "en-US-AriaNeural"

/-- The `speed_to_rate` lookup with its `.get(..., 1.0)` default. -/
def speed_to_rate (speed : String) : ℚ :=
  if speed = "slow" then 8 / 10
  else if speed = "normal" then 1
  else if speed = "fast" then 12 / 10
  else 1

/-- `get_speaking_rate_from_config`: `1.0` when there is no config or no
`botSpeed`; otherwise the speed lookup, floored at `1.1` when the tone is
`"Fast Native Speaker"`. -/
def get_speaking_rate_from_config : Option SpeakingConfig → ℚ
  | none => 1
  | some config =>
    match config.botSpeed with
    | none => 1
    | some speed =>
      let base_rate := speed_to_rate speed
      if config.botTone = some "Fast Native Speaker" then max base_rate (11 / 10)
      else base_rate

/-- `get_tts_parameters`: `(voice, rate)` with the Aria/1.0 defaults when the
config (or its tone) is absent. -/
def get_tts_parameters : Option SpeakingConfig → String × ℚ
  | none => ("en-US-AriaNeural", 1)
  | some config =>
    (match config.botTone with
     | some tone => get_tts_voice_from_tone tone
     | none => "en-US-AriaNeural",
     get_speaking_rate_from_config (some config))

/-! ## Turn orchestrator (`app/routers/chat_router.py`) -/

structure ChatMessage where
  role : String
  content : String
deriving DecidableEq

structure ChatTurnRequest where
  context : List ChatMessage
  audio_base64 : String
  user_transcript : Option String := none
  config : Option SpeakingConfig := none

structure Feedback where
  pronunciation_score : ℚ
  fluency_score : ℚ
  intonation_score : ℚ
  grammar_score : ℚ
  total_score : ℚ
  improvement_tip : String
  mistakes : List Mistake
deriving DecidableEq

structure TurnResponse where
  feedback : Feedback
  bot_text : String
  bot_translation : String
  user_transcript : String
  user_translation : Option String := none
  is_unintelligible : Bool := false
  bot_audio_base64 : Option String := none
deriving DecidableEq

/-- The external collaborators the orchestrator can invoke after the gate. -/
inductive ExtCall
  | pronunciationAssessment
  | intonationScoring
  | grammarLLM
  | replyLLM
  | ttsSynthesis
deriving DecidableEq

/-- Everything the external collaborators would deliver during one turn:
the recognizer callback data for pronunciation assessment, the pitch
extraction outcome, the two LLM outcomes, and the synthesis outcome
(`none` = `tts_to_wav_base64` raised, as a function of the voice and rate it
was invoked with). -/
structure ExternalWorld where
  recognized_words : List AWord
  fluency_scores : List ℚ
  durations : List ℕ
  audio : AudioPitch
  grammar_llm : GrammarLLMResult
  reply_llm : ReplyLLMResult
  tts_result : String → ℚ → Option String

/-- `process_chat_turn`, after the audio decode and the Azure STT call
(`stt_text` is the raw recognizer transcript, stripped on entry exactly as the
router strips it).  Returns the response paired with the list of post-gate
external calls made, in order; `none` models an exception escaping the
handler (pronunciation assessment raising).  The short-circuit branch makes no
external call at all. -/
def process_chat_turn (req : ChatTurnRequest) (stt_text : String)
    (w : ExternalWorld) : Option (TurnResponse × List ExtCall) :=
  let azure_transcript := pyStrip stt_text
  let user_txt := pyStrip (req.user_transcript.getD "")
  let chosen_transcript := azure_transcript
  if (user_txt ≠ "" ∧
        calculate_transcript_similarity user_txt azure_transcript < 9 / 10) ∨
      chosen_transcript = "" then
    some
      ({ feedback :=
          { pronunciation_score := 0
            fluency_score := 0
            intonation_score := 0
            grammar_score := 0
            total_score := 0
            improvement_tip :=
              "I couldn\u0027t clearly understand this sentence. Please speak a bit slower and more clearly."
            mistakes := [] }
         bot_text :=
          "I had trouble understanding you. Could you repeat that more slowly?"
         bot_translation := "Tôi hơi khó nghe rõ. Bạn có thể nói lại chậm hơn không?"
         user_transcript :=
          if azure_transcript ≠ "" then azure_transcript else user_txt
         user_translation := none
         is_unintelligible := true
         bot_audio_base64 := none }, [])
  else
    match pronunciation_assessment_from_file chosen_transcript
        w.recognized_words w.fluency_scores w.durations with
    | none => none
    | some (accuracy, _completeness, fluency, _final_words) =>
      let intonation := calculate_intonation_score w.audio
      let g := grammar_feedback_from_gemini chosen_transcript w.grammar_llm
      let r := generate_gemini_response w.reply_llm
      let pronunciation_score := round1 accuracy
      let fluency_score := round1 fluency
      let grammar_score := round1 g.1
      let intonation_score := round1 intonation
      let total_score := round1
        ((pronunciation_score + fluency_score + grammar_score +
          intonation_score) / 4)
      let tts_params := get_tts_parameters req.config
      some
        ({ feedback :=
            { pronunciation_score := pronunciation_score
              fluency_score := fluency_score
              intonation_score := intonation_score
              grammar_score := grammar_score
              total_score := total_score
              improvement_tip := if g.2.1 ≠ "" then g.2.1 else r.1
              mistakes := g.2.2.1 }
           bot_text := r.1
           bot_translation := r.2
           user_transcript := chosen_transcript
           user_translation := some g.2.2.2
           is_unintelligible := false
           bot_audio_base64 := w.tts_result tts_params.1 tts_params.2 },
         [.pronunciationAssessment, .intonationScoring, .grammarLLM,
          .replyLLM, .ttsSynthesis])

end ToeicAI

namespace ToeicAI

/-! ## Structural facts about the sequence-matcher model -/

/-- A fold preserves any invariant its step preserves. -/
theorem foldlPreserve {α β : Type} {P : β → Prop} {f : β → α → β} :
    ∀ (l : List α) (b : β), (∀ x ∈ l, ∀ c, P c → P (f c x)) → P b →
      P (l.foldl f b)
  | [], _b, _, hb => hb
  | x :: xs, b, hstep, hb =>
    foldlPreserve xs (f b x)
      (fun y hy c hc => hstep y (List.mem_cons_of_mem x hy) c hc)
      (hstep x (List.mem_cons_self x xs) b hb)

theorem matchLenFrom_le {α : Type} [DecidableEq α] (a b : List α) :
    ∀ (n i j : ℕ), matchLenFrom a b i j n ≤ n
  | 0, _, _ => Nat.le_refl 0
  | n + 1, i, j => by
    unfold matchLenFrom
    cases a[i]? with
    | none => exact Nat.zero_le _
    | some x =>
      cases b[j]? with
      | none => exact Nat.zero_le _
      | some y =>
        dsimp only
        split
        · exact Nat.succ_le_succ (matchLenFrom_le a b n (i + 1) (j + 1))
        · exact Nat.zero_le _

/-- The block found by `findLongestMatch` lies inside the requested windows
whenever it is nonempty. -/
theorem findLongestMatch_bounds {α : Type} [DecidableEq α] (a b : List α)
    (alo ahi blo bhi : ℕ) :
    0 < (findLongestMatch a b alo ahi blo bhi).2.2 →
      alo ≤ (findLongestMatch a b alo ahi blo bhi).1 ∧
      (findLongestMatch a b alo ahi blo bhi).1 +
        (findLongestMatch a b alo ahi blo bhi).2.2 ≤ ahi ∧
      blo ≤ (findLongestMatch a b alo ahi blo bhi).2.1 ∧
      (findLongestMatch a b alo ahi blo bhi).2.1 +
        (findLongestMatch a b alo ahi blo bhi).2.2 ≤ bhi := by
  unfold findLongestMatch
  refine foldlPreserve
    (P := fun m : Block => 0 < m.2.2 → alo ≤ m.1 ∧ m.1 + m.2.2 ≤ ahi ∧
      blo ≤ m.2.1 ∧ m.2.1 + m.2.2 ≤ bhi) _ _ ?_ (by intro h; simp at h)
  intro i hi c hc
  refine foldlPreserve
    (P := fun m : Block => 0 < m.2.2 → alo ≤ m.1 ∧ m.1 + m.2.2 ≤ ahi ∧
      blo ≤ m.2.1 ∧ m.2.1 + m.2.2 ≤ bhi) _ _ ?_ hc
  intro j hj d hd
  dsimp only
  split
  · intro _
    rw [List.mem_range'_1] at hi hj
    have hk := matchLenFrom_le a b (min (ahi - i) (bhi - j)) i j
    dsimp only
    refine ⟨?_, ?_, ?_, ?_⟩ <;> omega
  · exact hd

/-- `ChainFrom la lb i j L`: starting at cursor `(i, j)`, the blocks of `L`
are ordered, non-overlapping and contained in `[0, la) × [0, lb)`. -/
def ChainFrom (la lb : ℕ) : ℕ → ℕ → List Block → Prop
  | _, _, [] => True
  | i, j, (ai, bj, size) :: rest =>
    i ≤ ai ∧ j ≤ bj ∧ ai + size ≤ la ∧ bj + size ≤ lb ∧
      ChainFrom la lb (ai + size) (bj + size) rest

theorem chainFrom_mono_start {la lb : ℕ} :
    ∀ (L : List Block) (i j i' j' : ℕ), ChainFrom la lb i' j' L →
      i ≤ i' → j ≤ j' → ChainFrom la lb i j L
  | [], _, _, _, _, _, _, _ => trivial
  | (ai, bj, size) :: rest, i, j, i', j', h, hi, hj => by
    obtain ⟨h1, h2, h3, h4, h5⟩ := h
    exact ⟨le_trans hi h1, le_trans hj h2, h3, h4, h5⟩

theorem chainFrom_mono_bound {la lb la' lb' : ℕ} (hla : la ≤ la')
    (hlb : lb ≤ lb') :
    ∀ (L : List Block) (i j : ℕ), ChainFrom la lb i j L →
      ChainFrom la' lb' i j L
  | [], _, _, _ => trivial
  | (ai, bj, size) :: rest, i, j, h => by
    obtain ⟨h1, h2, h3, h4, h5⟩ := h
    exact ⟨h1, h2, le_trans h3 hla, le_trans h4 hlb,
      chainFrom_mono_bound hla hlb rest _ _ h5⟩

theorem chainFrom_append {la lb : ℕ} :
    ∀ (L1 : List Block) (s t m n : ℕ) (L2 : List Block),
      ChainFrom m n s t L1 → ChainFrom la lb m n L2 →
      s ≤ m → t ≤ n → m ≤ la → n ≤ lb →
      ChainFrom la lb s t (L1 ++ L2)
  | [], s, t, m, n, L2, _, h2, hs, ht, _, _ =>
    chainFrom_mono_start L2 s t m n h2 hs ht
  | (ai, bj, size) :: rest, s, t, m, n, L2, h1, h2, _, _, hm, hn => by
    obtain ⟨g1, g2, g3, g4, g5⟩ := h1
    exact ⟨g1, g2, le_trans g3 hm, le_trans g4 hn,
      chainFrom_append rest (ai + size) (bj + size) m n L2 g5 h2
        g3 g4 hm hn⟩

/-- The blocks gathered by `matchingBlocksAux` form a chain inside the
requested windows (for any fuel). -/
theorem matchingBlocksAux_chain {α : Type} [DecidableEq α] (a b : List α) :
    ∀ (fuel alo ahi blo bhi : ℕ),
      ChainFrom ahi bhi alo blo (matchingBlocksAux a b fuel alo ahi blo bhi)
  | 0, _, _, _, _ => trivial
  | fuel + 1, alo, ahi, blo, bhi => by
    simp only [matchingBlocksAux]
    split
    · rename_i hpos
      have hb := findLongestMatch_bounds a b alo ahi blo bhi hpos
      refine chainFrom_append _ alo blo
        (findLongestMatch a b alo ahi blo bhi).1
        (findLongestMatch a b alo ahi blo bhi).2.1 _
        (matchingBlocksAux_chain a b fuel alo _ blo _) ?_
        hb.1 hb.2.2.1 (by omega) (by omega)
      have htail := matchingBlocksAux_chain a b fuel
        ((findLongestMatch a b alo ahi blo bhi).1 +
          (findLongestMatch a b alo ahi blo bhi).2.2) ahi
        ((findLongestMatch a b alo ahi blo bhi).2.1 +
          (findLongestMatch a b alo ahi blo bhi).2.2) bhi
      exact ⟨le_refl _, le_refl _, hb.2.1, hb.2.2.2,
        chainFrom_mono_start _ _ _ _ _ htail (le_refl _) (le_refl _)⟩
    · trivial

/-- Merging adjacent blocks preserves the chain property, with the pending
block `(i1, j1, k1)` prepended. -/
theorem mergeBlocksAux_chain {la lb : ℕ} :
    ∀ (L : List Block) (i1 j1 k1 : ℕ),
      i1 + k1 ≤ la → j1 + k1 ≤ lb →
      ChainFrom la lb (i1 + k1) (j1 + k1) L →
      ChainFrom la lb i1 j1 (mergeBlocksAux i1 j1 k1 L)
  | [], i1, j1, k1, h1, h2, _ => by
    rw [mergeBlocksAux]
    split
    · exact ⟨le_refl _, le_refl _, h1, h2, trivial⟩
    · trivial
  | (i2, j2, k2) :: rest, i1, j1, k1, h1, h2, hc => by
    obtain ⟨g1, g2, g3, g4, g5⟩ := hc
    rw [mergeBlocksAux]
    split
    · rename_i hadj
      refine mergeBlocksAux_chain rest i1 j1 (k1 + k2) (by omega) (by omega) ?_
      have : i1 + (k1 + k2) = i2 + k2 ∧ j1 + (k1 + k2) = j2 + k2 := by omega
      rw [this.1, this.2]
      exact g5
    · have hM := mergeBlocksAux_chain rest i2 j2 k2 g3 g4 g5
      split
      · exact ⟨le_refl _, le_refl _, by omega, by omega,
          chainFrom_mono_start _ _ _ _ _ hM (by omega) (by omega)⟩
      · rename_i hk1
        simp only [List.nil_append]
        exact chainFrom_mono_start _ _ _ _ _ hM (by omega) (by omega)

/-- The merged (sentinel-free) matching blocks form a chain from `(0, 0)`
bounded by the two lengths. -/
theorem matchingBlocks_chain {α : Type} [DecidableEq α] (a b : List α) :
    ChainFrom a.length b.length 0 0
      (mergeBlocksAux 0 0 0
        (matchingBlocksAux a b (a.length + b.length) 0 a.length 0 b.length)) := by
  have h := matchingBlocksAux_chain a b (a.length + b.length) 0 a.length 0
    b.length
  exact mergeBlocksAux_chain _ 0 0 0 (by omega) (by omega) h

/-! ## Counting the aligned words -/

theorem mem_sliceL {α : Type} {x : α} {l : List α} {i1 i2 : ℕ}
    (h : x ∈ sliceL l i1 i2) : x ∈ l :=
  List.mem_of_mem_drop (List.mem_of_mem_take h)

theorem length_sliceL {α : Type} (l : List α) (i1 i2 : ℕ)
    (h2 : i2 ≤ l.length) : (sliceL l i1 i2).length = i2 - i1 := by
  simp only [sliceL, List.length_take, List.length_drop]
  omega

theorem countErrorType_append (l1 l2 : List AWord) (t : String) :
    countErrorType (l1 ++ l2) t = countErrorType l1 t + countErrorType l2 t :=
  List.countP_append _ l1 l2

theorem matchedCount_append (l1 l2 : List AWord) :
    matchedCount (l1 ++ l2) = matchedCount l1 + matchedCount l2 :=
  List.countP_append _ l1 l2

/-- Counts for an `insert`/`replace` chunk of recognized words when none of
them carries a pre-existing miscue error type. -/
theorem counts_markedSlice (recW : List AWord)
    (hN : ∀ w ∈ recW, w.error_type = "None") (j1 j2 : ℕ)
    (h2 : j2 ≤ recW.length) :
    countErrorType ((sliceL recW j1 j2).map markInsertion) "Insertion" =
      j2 - j1 ∧
    countErrorType ((sliceL recW j1 j2).map markInsertion) "Omission" = 0 ∧
    matchedCount ((sliceL recW j1 j2).map markInsertion) = 0 := by
  have hmark : ∀ w ∈ sliceL recW j1 j2,
      (markInsertion w).error_type = "Insertion" := by
    intro w hw
    simp [markInsertion, hN w (mem_sliceL hw)]
  refine ⟨?_, ?_, ?_⟩
  · rw [countErrorType, List.countP_map, ← length_sliceL recW j1 j2 h2]
    exact List.countP_eq_length.mpr fun w hw => by
      simp [Function.comp, hmark w hw]
  · rw [countErrorType, List.countP_map]
    exact List.countP_eq_zero.mpr fun w hw => by
      simp [Function.comp, hmark w hw]
  · rw [matchedCount, List.countP_map]
    exact List.countP_eq_zero.mpr fun w hw => by
      simp [Function.comp, hmark w hw]

/-- Counts for a `delete`/`replace` chunk of synthesized omission words. -/
theorem counts_omissionSlice (refW : List String) (i1 i2 : ℕ)
    (h2 : i2 ≤ refW.length) :
    countErrorType ((sliceL refW i1 i2).map omissionWord) "Omission" =
      i2 - i1 ∧
    countErrorType ((sliceL refW i1 i2).map omissionWord) "Insertion" = 0 ∧
    matchedCount ((sliceL refW i1 i2).map omissionWord) = 0 := by
  refine ⟨?_, ?_, ?_⟩
  · rw [countErrorType, List.countP_map, ← length_sliceL refW i1 i2 h2]
    exact List.countP_eq_length.mpr fun w _ => by
      simp [Function.comp, omissionWord]
  · rw [countErrorType, List.countP_map]
    exact List.countP_eq_zero.mpr fun w _ => by
      simp [Function.comp, omissionWord]
  · rw [matchedCount, List.countP_map]
    exact List.countP_eq_zero.mpr fun w _ => by
      simp [Function.comp, omissionWord]

/-- Counts for an `equal` chunk: recognized words copied through unchanged. -/
theorem counts_equalSlice (recW : List AWord)
    (hN : ∀ w ∈ recW, w.error_type = "None") (j1 j2 : ℕ)
    (h2 : j2 ≤ recW.length) :
    matchedCount (sliceL recW j1 j2) = j2 - j1 ∧
    countErrorType (sliceL recW j1 j2) "Insertion" = 0 ∧
    countErrorType (sliceL recW j1 j2) "Omission" = 0 := by
  refine ⟨?_, ?_, ?_⟩
  · rw [matchedCount, ← length_sliceL recW j1 j2 h2]
    exact List.countP_eq_length.mpr fun w hw => by
      simp [hN w (mem_sliceL hw)]
  · rw [countErrorType]
    exact List.countP_eq_zero.mpr fun w hw => by
      simp [hN w (mem_sliceL hw)]
  · rw [countErrorType]
    exact List.countP_eq_zero.mpr fun w hw => by
      simp [hN w (mem_sliceL hw)]

theorem finalWordsOfOpcodes_append (refW : List String) (recW : List AWord) :
    ∀ (l1 l2 : List Opcode),
      finalWordsOfOpcodes refW recW (l1 ++ l2) =
        finalWordsOfOpcodes refW recW l1 ++ finalWordsOfOpcodes refW recW l2
  | [], l2 => rfl
  | op :: rest, l2 => by
    rw [List.cons_append]
    simp only [finalWordsOfOpcodes]
    rw [finalWordsOfOpcodes_append refW recW rest l2]
    simp only [List.append_assoc]

theorem countErrorType_nil (t : String) : countErrorType [] t = 0 := rfl

theorem matchedCount_nil : matchedCount [] = 0 := rfl

theorem finalWordsOfOpcodes_nil (refW : List String) (recW : List AWord) :
    finalWordsOfOpcodes refW recW [] = [] := rfl

theorem finalWordsOfOpcodes_replace (refW : List String) (recW : List AWord)
    (i1 i2 j1 j2 : ℕ) :
    finalWordsOfOpcodes refW recW [⟨Tag.replace, i1, i2, j1, j2⟩] =
      (sliceL recW j1 j2).map markInsertion ++
        (sliceL refW i1 i2).map omissionWord := by
  simp [finalWordsOfOpcodes]

theorem finalWordsOfOpcodes_delete (refW : List String) (recW : List AWord)
    (i1 i2 j1 j2 : ℕ) :
    finalWordsOfOpcodes refW recW [⟨Tag.delete, i1, i2, j1, j2⟩] =
      (sliceL refW i1 i2).map omissionWord := by
  simp [finalWordsOfOpcodes]

theorem finalWordsOfOpcodes_insert (refW : List String) (recW : List AWord)
    (i1 i2 j1 j2 : ℕ) :
    finalWordsOfOpcodes refW recW [⟨Tag.insert, i1, i2, j1, j2⟩] =
      (sliceL recW j1 j2).map markInsertion := by
  simp [finalWordsOfOpcodes]

theorem finalWordsOfOpcodes_equal (refW : List String) (recW : List AWord)
    (i1 i2 j1 j2 : ℕ) :
    finalWordsOfOpcodes refW recW [⟨Tag.equal, i1, i2, j1, j2⟩] =
      sliceL recW j1 j2 := by
  simp [finalWordsOfOpcodes]

/-- Counts of the words emitted for the gap opcode before a matching block
(or before the sentinel): `ai - i` omissions, `bj - j` insertions, no
matches. -/
theorem counts_tagPart (refW : List String) (recW : List AWord)
    (hN : ∀ w ∈ recW, w.error_type = "None") (i ai j bj : ℕ)
    (hai : ai ≤ refW.length) (hbj : bj ≤ recW.length)
    (hi : i ≤ ai) (hj : j ≤ bj) :
    countErrorType (finalWordsOfOpcodes refW recW
        (if i < ai ∧ j < bj then [⟨Tag.replace, i, ai, j, bj⟩]
         else if i < ai then [⟨Tag.delete, i, ai, j, bj⟩]
         else if j < bj then [⟨Tag.insert, i, ai, j, bj⟩]
         else [])) "Omission" = ai - i ∧
    countErrorType (finalWordsOfOpcodes refW recW
        (if i < ai ∧ j < bj then [⟨Tag.replace, i, ai, j, bj⟩]
         else if i < ai then [⟨Tag.delete, i, ai, j, bj⟩]
         else if j < bj then [⟨Tag.insert, i, ai, j, bj⟩]
         else [])) "Insertion" = bj - j ∧
    matchedCount (finalWordsOfOpcodes refW recW
        (if i < ai ∧ j < bj then [⟨Tag.replace, i, ai, j, bj⟩]
         else if i < ai then [⟨Tag.delete, i, ai, j, bj⟩]
         else if j < bj then [⟨Tag.insert, i, ai, j, bj⟩]
         else [])) = 0 := by
  have hmk := counts_markedSlice recW hN j bj hbj
  have hom := counts_omissionSlice refW i ai hai
  by_cases h1 : i < ai ∧ j < bj
  · rw [if_pos h1, finalWordsOfOpcodes_replace, countErrorType_append,
      countErrorType_append, matchedCount_append]
    omega
  · rw [if_neg h1]
    by_cases h2 : i < ai
    · rw [if_pos h2, finalWordsOfOpcodes_delete]
      omega
    · rw [if_neg h2]
      by_cases h3 : j < bj
      · rw [if_pos h3, finalWordsOfOpcodes_insert]
        omega
      · rw [if_neg h3, finalWordsOfOpcodes_nil]
        rw [countErrorType_nil, countErrorType_nil, matchedCount_nil]
        omega

/-- The central counting invariant, by induction over a chain of matching
blocks followed by the sentinel: walking the opcodes from cursor `(i, j)`
produces `la - i` reference-side words (omissions plus matches) and `lb - j`
recognized-side words (insertions plus matches). -/
theorem countsOfOpcodesAux (refW : List String) (recW : List AWord)
    (hN : ∀ w ∈ recW, w.error_type = "None") :
    ∀ (L : List Block) (la lb i j : ℕ),
      la = refW.length → lb = recW.length →
      ChainFrom la lb i j L → i ≤ la → j ≤ lb →
      countErrorType (finalWordsOfOpcodes refW recW
          (getOpcodesAux i j (L ++ [(la, lb, 0)]))) "Omission" +
        matchedCount (finalWordsOfOpcodes refW recW
          (getOpcodesAux i j (L ++ [(la, lb, 0)]))) = la - i ∧
      countErrorType (finalWordsOfOpcodes refW recW
          (getOpcodesAux i j (L ++ [(la, lb, 0)]))) "Insertion" +
        matchedCount (finalWordsOfOpcodes refW recW
          (getOpcodesAux i j (L ++ [(la, lb, 0)]))) = lb - j
  | [], la, lb, i, j, hla, hlb, _, hi, hj => by
    subst hla; subst hlb
    have htag := counts_tagPart refW recW hN i refW.length j recW.length
      (le_refl _) (le_refl _) hi hj
    rw [List.nil_append]
    simp only [getOpcodesAux, List.append_eq]
    rw [if_neg (show ¬((0 : ℕ) ≠ 0) by omega)]
    rw [List.append_nil, List.append_nil]
    omega
  | (ai, bj, sz) :: rest, la, lb, i, j, hla, hlb, hc, hi, hj => by
    obtain ⟨g1, g2, g3, g4, g5⟩ := hc
    have htag := counts_tagPart refW recW hN i ai j bj
      (by omega) (by omega) g1 g2
    have hIH := countsOfOpcodesAux refW recW hN rest la lb (ai + sz) (bj + sz)
      hla hlb g5 (by omega) (by omega)
    have heqc := counts_equalSlice recW hN bj (bj + sz) (by omega)
    subst hla; subst hlb
    rw [List.cons_append]
    simp only [getOpcodesAux, List.append_eq]
    rw [finalWordsOfOpcodes_append, finalWordsOfOpcodes_append]
    simp only [countErrorType_append, matchedCount_append]
    by_cases hsz : sz = 0
    · subst hsz
      rw [if_neg (show ¬((0 : ℕ) ≠ 0) by omega), finalWordsOfOpcodes_nil]
      rw [countErrorType_nil, countErrorType_nil, matchedCount_nil]
      omega
    · rw [if_pos hsz, finalWordsOfOpcodes_equal]
      omega

/-- Amended alignment invariant: when no recognized word carries a
pre-existing miscue error type, the aligned sequence contains every reference
word exactly once (matched or as an omission) and every recognized word
exactly once (matched or as an insertion). -/
theorem align_counts_invariant_aux (refW : List String) (recW : List AWord)
    (hN : ∀ w ∈ recW, w.error_type = "None") :
    countErrorType (finalWords refW recW) "Omission" +
      matchedCount (finalWords refW recW) = refW.length ∧
    countErrorType (finalWords refW recW) "Insertion" +
      matchedCount (finalWords refW recW) = recW.length := by
  have hblen : (recW.map fun w => lowerStr w.word).length = recW.length :=
    List.length_map _ _
  have hchain := matchingBlocks_chain refW (recW.map fun w => lowerStr w.word)
  have h := countsOfOpcodesAux refW recW hN
    (mergeBlocksAux 0 0 0
      (matchingBlocksAux refW (recW.map fun w => lowerStr w.word)
        (refW.length + (recW.map fun w => lowerStr w.word).length)
        0 refW.length 0 (recW.map fun w => lowerStr w.word).length))
    refW.length (recW.map fun w => lowerStr w.word).length 0 0
    rfl hblen hchain (by omega) (by omega)
  rw [hblen] at h
  rw [finalWords, getOpcodes, getMatchingBlocks, hblen]
  constructor
  · have := h.1
    omega
  · have := h.2
    omega

/-! ## Aligning a sequence against itself -/

theorem matchLenFrom_self {α : Type} [DecidableEq α] (a : List α) :
    ∀ (n i : ℕ), matchLenFrom a a i i n = min n (a.length - i)
  | 0, i => by simp [matchLenFrom]
  | n + 1, i => by
    unfold matchLenFrom
    rcases h : a[i]? with _ | x
    · have h0 : a.length ≤ i := List.getElem?_eq_none_iff.mp h
      simp only [h]
      omega
    · have hx : i < a.length := by
        by_contra hcon
        rw [List.getElem?_eq_none (by omega)] at h
        exact Option.noConfusion h
      simp only [h, eq_self_iff_true, if_true]
      rw [matchLenFrom_self a n (i + 1)]
      omega

/-- One-step unfolding of `matchingBlocksAux` at positive fuel. -/
theorem matchingBlocksAux_succ {α : Type} [DecidableEq α] (a b : List α)
    (fuel alo ahi blo bhi : ℕ) :
    matchingBlocksAux a b (fuel + 1) alo ahi blo bhi =
      if 0 < (findLongestMatch a b alo ahi blo bhi).2.2 then
        matchingBlocksAux a b fuel alo (findLongestMatch a b alo ahi blo bhi).1
            blo (findLongestMatch a b alo ahi blo bhi).2.1 ++
          (findLongestMatch a b alo ahi blo bhi) ::
            matchingBlocksAux a b fuel
              ((findLongestMatch a b alo ahi blo bhi).1 +
                (findLongestMatch a b alo ahi blo bhi).2.2) ahi
              ((findLongestMatch a b alo ahi blo bhi).2.1 +
                (findLongestMatch a b alo ahi blo bhi).2.2) bhi
      else [] := rfl

theorem findLongestMatch_self {α : Type} [DecidableEq α] (a : List α) :
    findLongestMatch a a 0 a.length 0 a.length = (0, 0, a.length) := by
  unfold findLongestMatch
  rcases hn : a.length with _ | m
  · simp [List.range']
  · rw [Nat.sub_zero, List.range'_succ, List.foldl_cons]
    have hInner : List.foldl
        (fun best j =>
          let k := matchLenFrom a a 0 j (min (m + 1 - 0) (m + 1 - j))
          if best.2.2 < k then ((0 : ℕ), j, k) else best)
        ((0 : ℕ), (0 : ℕ), (0 : ℕ)) (0 :: List.range' (0 + 1) m) =
        (0, 0, m + 1) := by
      rw [List.foldl_cons]
      have hk : matchLenFrom a a 0 0 (min (m + 1 - 0) (m + 1 - 0)) = m + 1 := by
        rw [matchLenFrom_self a, hn]
        omega
      rw [hk]
      dsimp only
      rw [if_pos (Nat.succ_pos m)]
      refine foldlPreserve (P := fun c : Block => c = (0, 0, m + 1)) _ _ ?_ rfl
      intro j hj c hc
      subst hc
      dsimp only
      rw [List.mem_range'_1] at hj
      have hle := matchLenFrom_le a a (min (m + 1 - 0) (m + 1 - j)) 0 j
      rw [if_neg (by omega)]
    rw [hInner]
    refine foldlPreserve (P := fun c : Block => c = (0, 0, m + 1)) _ _ ?_ rfl
    intro i hi c hc
    subst hc
    rw [List.mem_range'_1] at hi
    refine foldlPreserve (P := fun c : Block => c = (0, 0, m + 1)) _ _ ?_ rfl
    intro j hj c hc
    subst hc
    dsimp only
    have hle := matchLenFrom_le a a (min (m + 1 - i) (m + 1 - j)) i j
    rw [if_neg (by omega)]

theorem findLongestMatch_emptyA {α : Type} [DecidableEq α] (a b : List α)
    (alo blo bhi : ℕ) :
    findLongestMatch a b alo alo blo bhi = (alo, blo, 0) := by
  unfold findLongestMatch
  rw [Nat.sub_self]
  rfl

theorem matchingBlocksAux_emptyA {α : Type} [DecidableEq α] (a b : List α) :
    ∀ (fuel alo blo bhi : ℕ), matchingBlocksAux a b fuel alo alo blo bhi = []
  | 0, _, _, _ => rfl
  | fuel + 1, alo, blo, bhi => by
    rw [matchingBlocksAux_succ, findLongestMatch_emptyA]
    norm_num

theorem getMatchingBlocks_self {α : Type} [DecidableEq α] (a : List α) :
    getMatchingBlocks a a =
      if a.length = 0 then [(0, 0, 0)]
      else [(0, 0, a.length), (a.length, a.length, 0)] := by
  rw [getMatchingBlocks]
  rcases hn : a.length with _ | m
  · rw [if_pos rfl]
    rfl
  · rw [if_neg (by omega)]
    have hfuel : m + 1 + (m + 1) = (m + (m + 1)) + 1 := by omega
    have hflm : findLongestMatch a a 0 (m + 1) 0 (m + 1) = (0, 0, m + 1) := by
      rw [← hn, findLongestMatch_self]
    rw [hfuel, matchingBlocksAux_succ, hflm]
    dsimp only
    rw [if_pos (Nat.succ_pos m)]
    rw [matchingBlocksAux_emptyA]
    rw [show (0 : ℕ) + (m + 1) = m + 1 by omega]
    rw [matchingBlocksAux_emptyA]
    rw [List.nil_append]
    have hmerge : mergeBlocksAux 0 0 0 [(0, 0, m + 1)] = [(0, 0, m + 1)] := by
      simp [mergeBlocksAux]
    rw [hmerge]
    rfl

theorem finalWords_self (recW : List AWord) :
    finalWords (recW.map fun w => lowerStr w.word) recW = recW := by
  have hlen : (recW.map fun w => lowerStr w.word).length = recW.length :=
    List.length_map _ _
  rw [finalWords, getOpcodes, getMatchingBlocks_self]
  rcases hn : (recW.map fun w => lowerStr w.word).length with _ | m
  · rw [hn, if_pos rfl]
    have hne : recW = [] := List.length_eq_zero.mp (by omega)
    subst hne
    rfl
  · rw [hn, if_neg (by omega)]
    have hops : getOpcodesAux 0 0 [((0 : ℕ), (0 : ℕ), m + 1),
        (m + 1, m + 1, (0 : ℕ))] = [⟨Tag.equal, 0, 0 + (m + 1), 0, 0 + (m + 1)⟩] := by
      rw [getOpcodesAux]
      rw [if_neg (by omega), if_neg (by omega), if_neg (by omega),
        if_pos (by omega)]
      rw [getOpcodesAux]
      rw [if_neg (by omega), if_neg (by omega), if_neg (by omega),
        if_neg (by omega)]
      rw [getOpcodesAux]
      simp
    rw [hops]
    rw [show finalWordsOfOpcodes (recW.map fun w => lowerStr w.word) recW
          [⟨Tag.equal, 0, 0 + (m + 1), 0, 0 + (m + 1)⟩] =
        sliceL recW 0 (0 + (m + 1)) from
      finalWordsOfOpcodes_equal _ _ _ _ _ _]
    rw [sliceL, Nat.sub_zero, List.drop_zero]
    have hrl : recW.length = 0 + (m + 1) := by omega
    rw [← hrl, List.take_length]

/-! ## Bounds for the intonation scorer -/

theorem round_le_round_of_le {x y : ℚ} (h : x ≤ y) : round x ≤ round y := by
  rw [round_eq, round_eq]
  exact Int.floor_mono (by linarith)

theorem round1_mem {x : ℚ} (h0 : 0 ≤ x) (h1 : x ≤ 100) :
    0 ≤ round1 x ∧ round1 x ≤ 100 := by
  have hl : round (0 : ℚ) ≤ round (x * 10) := round_le_round_of_le (by linarith)
  have hr : round (x * 10) ≤ round (((1000 : ℤ) : ℚ)) :=
    round_le_round_of_le (by push_cast; linarith)
  rw [round_zero] at hl
  rw [round_intCast] at hr
  constructor
  · exact div_nonneg (by exact_mod_cast hl) (by norm_num)
  · rw [round1, div_le_iff₀ (by norm_num : (0 : ℚ) < 10)]
    calc ((round (x * 10) : ℤ) : ℚ) ≤ ((1000 : ℤ) : ℚ) := by exact_mod_cast hr
      _ = 100 * 10 := by norm_num

theorem score_from_percent_nonneg (p mn mx : ℚ) :
    0 ≤ score_from_percent p mn mx := by
  unfold score_from_percent
  split
  · norm_num
  · split
    · exact le_max_left 0 _
    · exact le_max_left 0 _

theorem score_from_percent_le (p mn mx : ℚ) (hmn : 0 < mn) :
    score_from_percent p mn mx ≤ 100 := by
  unfold score_from_percent
  split
  · norm_num
  · rename_i hband
    split
    · rename_i hlow
      apply max_le (by norm_num)
      have hdiv : p / mn ≤ 1 := by
        rw [div_le_one hmn]
        linarith
      nlinarith
    · rename_i hlow
      push_neg at hband hlow
      have hgt : mx < p := hband hlow
      apply max_le (by norm_num)
      have h2 : 0 ≤ min 50 ((p - mx) / 2) :=
        le_min (by norm_num) (div_nonneg (by linarith) (by norm_num))
      linarith

theorem clamp01_round_mem (q : ℚ) :
    0 ≤ round1 (max 0 (min 1 q) * 100) ∧ round1 (max 0 (min 1 q) * 100) ≤ 100 := by
  have h0 : (0 : ℚ) ≤ max 0 (min 1 q) := le_max_left _ _
  have h1 : max 0 (min 1 q) ≤ 1 := max_le (by norm_num) (min_le_left _ _)
  exact round1_mem (by linarith) (by linarith)

set_option maxHeartbeats 1000000 in
theorem calculate_intonation_score_mem (ap : AudioPitch) :
    0 ≤ calculate_intonation_score ap ∧
      calculate_intonation_score ap ≤ 100 := by
  cases ap with
  | stats mean_f0 min_f0 max_f0 std_f0 =>
    unfold calculate_intonation_score
    dsimp only
    rw [if_pos (by norm_num : (0 : ℚ) < 70), if_pos (by norm_num : (0 : ℚ) < 30)]
    have h1 := score_from_percent_nonneg ((max_f0 - min_f0) / 70 * 100) 80 120
    have h2 := score_from_percent_le ((max_f0 - min_f0) / 70 * 100) 80 120
      (by norm_num)
    have h3 := score_from_percent_nonneg (std_f0 / 30 * 100) 70 130
    have h4 := score_from_percent_le (std_f0 / 30 * 100) 70 130 (by norm_num)
    exact round1_mem (by linarith) (by linarith)
  | fallback values =>
    unfold calculate_intonation_score
    dsimp only
    split
    · norm_num
    · split
      · norm_num
      · exact clamp01_round_mem _
  | broken =>
    constructor
    · exact le_refl 0
    · norm_num [calculate_intonation_score]

theorem calculate_intonation_score_silent (values : List ℚ)
    (h : ∀ x ∈ values, x = 0) :
    calculate_intonation_score (.fallback values) = 0 := by
  unfold calculate_intonation_score
  dsimp only
  have hnz : values.filter (fun x => x != 0) = [] := by
    rw [List.filter_eq_nil_iff]
    intro x hx
    simp [h x hx]
  rw [hnz, if_pos rfl, if_pos (le_refl (0 : ℚ))]

/-! ## Rate computation helper -/

theorem rate_compute (cfg : SpeakingConfig) (s : String)
    (hs : cfg.botSpeed = some s) :
    get_speaking_rate_from_config (some cfg) =
      if cfg.botTone = some "Fast Native Speaker" then
        max (speed_to_rate s) (11 / 10)
      else speed_to_rate s := by
  simp only [get_speaking_rate_from_config, hs]

theorem speed_to_rate_slow : speed_to_rate "slow" = 8 / 10 := rfl

theorem speed_to_rate_normal : speed_to_rate "normal" = 1 := rfl

theorem speed_to_rate_fast : speed_to_rate "fast" = 12 / 10 := rfl

/-! ## Claim theorems -/

/-- C1 (counterexample): score aggregation does raise on an empty
denominator.  With a single aligned word marked `"Insertion"` the accuracy
set is empty and the accuracy division raises (`none`), and with a fluency
sample of duration 0 the fluency division raises (`none`); neither is the
fallback value `some 0` the claim describes. -/
theorem aggregate_empty_denominator_cex :
    paAccuracyScore [⟨"word", 95, "Insertion"⟩] = none ∧
    paFluencyScore [80] [0] = none := by
  constructor <;> rfl

/-- C1 (amended): when the set of aligned words with error type other than
`"Insertion"` is empty, the accuracy computation raises `ZeroDivisionError`
(no value is produced), and when the fluency samples' total duration is 0 the
fluency computation likewise raises; there is no 0 fallback. -/
theorem aggregate_empty_denominator_raises (final_words : List AWord)
    (fluency_scores : List ℚ) (durations : List ℕ)
    (ha : final_words.filter (fun w => w.error_type != "Insertion") = [])
    (hd : durations.sum = 0) :
    paAccuracyScore final_words = none ∧
    paFluencyScore fluency_scores durations = none := by
  constructor
  · simp [paAccuracyScore, ha]
  · simp [paFluencyScore, hd]

/-- C1 witness. -/
theorem aggregate_empty_denominator_raises_witness :
    paAccuracyScore [⟨"uh", 70, "Insertion"⟩] = none ∧
    paFluencyScore [80, 90] [0, 0] = none :=
  aggregate_empty_denominator_raises [⟨"uh", 70, "Insertion"⟩] [80, 90] [0, 0]
    (by decide) (by decide)

/-- C2: whenever a client transcript is supplied whose similarity to the
recognizer transcript is below 0.9, or the chosen transcript is empty, the
orchestrator short-circuits: it returns the fixed apology response with all
four scores and the total equal to 0, an empty mistake list, no synthesized
audio and the unintelligibility flag set, and it makes no external call
(no pronunciation assessment, no intonation scoring, no LLM, no TTS). -/
theorem short_circuit_full_response (req : ChatTurnRequest) (stt_text : String)
    (w : ExternalWorld)
    (h : (pyStrip (req.user_transcript.getD "") ≠ "" ∧
          calculate_transcript_similarity (pyStrip (req.user_transcript.getD ""))
            (pyStrip stt_text) < 9 / 10) ∨ pyStrip stt_text = "") :
    process_chat_turn req stt_text w =
      some
        ({ feedback :=
            { pronunciation_score := 0
              fluency_score := 0
              intonation_score := 0
              grammar_score := 0
              total_score := 0
              improvement_tip :=
                "I couldn't clearly understand this sentence. Please speak a bit slower and more clearly."
              mistakes := [] }
           bot_text :=
            "I had trouble understanding you. Could you repeat that more slowly?"
           bot_translation := "Tôi hơi khó nghe rõ. Bạn có thể nói lại chậm hơn không?"
           user_transcript :=
            if pyStrip stt_text ≠ "" then pyStrip stt_text
            else pyStrip (req.user_transcript.getD "")
           user_translation := none
           is_unintelligible := true
           bot_audio_base64 := none }, []) := by
  simp only [process_chat_turn]
  rw [if_pos h]

/-- C2 witness. -/
theorem short_circuit_full_response_witness :
    process_chat_turn
        { context := [], audio_base64 := "", user_transcript := some "abcd",
          config := none } "wxyz"
        { recognized_words := [], fluency_scores := [], durations := [],
          audio := .broken, grammar_llm := .allFailed, reply_llm := .allFailed,
          tts_result := fun _ _ => none } =
      some
        ({ feedback :=
            { pronunciation_score := 0
              fluency_score := 0
              intonation_score := 0
              grammar_score := 0
              total_score := 0
              improvement_tip :=
                "I couldn't clearly understand this sentence. Please speak a bit slower and more clearly."
              mistakes := [] }
           bot_text :=
            "I had trouble understanding you. Could you repeat that more slowly?"
           bot_translation := "Tôi hơi khó nghe rõ. Bạn có thể nói lại chậm hơn không?"
           user_transcript := "wxyz"
           user_translation := none
           is_unintelligible := true
           bot_audio_base64 := none }, []) := by
  refine short_circuit_full_response _ _ _ (Or.inl ⟨by decide, ?_⟩)
  show calculate_transcript_similarity (pyStrip "abcd") (pyStrip "wxyz") < 9 / 10
  have hs : smMatchSum (lowerStr (pyStrip "abcd")).data
      (lowerStr (pyStrip "wxyz")).data = 0 := by decide
  have h1 : (lowerStr (pyStrip "abcd")).data.length = 4 := by decide
  have h2 : (lowerStr (pyStrip "wxyz")).data.length = 4 := by decide
  rw [calculate_transcript_similarity, smRatioOf, hs, h1, h2]
  norm_num

/-- C3: the intonation scorer always returns a value in [0, 100] for any
finite pitch statistics and never propagates a pitch-extraction error (every
extraction outcome yields a number), and on silent input — all pitch samples
zero on the fallback path — it returns 0. -/
theorem intonation_score_bounds :
    (∀ ap : AudioPitch, 0 ≤ calculate_intonation_score ap ∧
      calculate_intonation_score ap ≤ 100) ∧
    (∀ values : List ℚ, (∀ x ∈ values, x = 0) →
      calculate_intonation_score (.fallback values) = 0) :=
  ⟨calculate_intonation_score_mem, calculate_intonation_score_silent⟩

/-- C3 witness. -/
theorem intonation_score_bounds_witness :
    0 ≤ calculate_intonation_score (.stats 130 100 170 30) ∧
    calculate_intonation_score (.stats 130 100 170 30) ≤ 100 ∧
    calculate_intonation_score (.fallback [0, 0]) = 0 :=
  ⟨(intonation_score_bounds.1 (.stats 130 100 170 30)).1,
    (intonation_score_bounds.1 (.stats 130 100 170 30)).2,
    intonation_score_bounds.2 [0, 0] (by intro x hx; simpa using hx)⟩

/-- C4 (counterexample): the alignment counting invariant fails for
recognized words that already carry a miscue error type.  A recognized word
pre-marked `"Insertion"` that matches the reference word passes through the
`equal` branch unchanged, so Omission-count + match-count is 0, not the
reference length 1. -/
theorem align_invariant_cex :
    ¬(countErrorType (finalWords ["a"] [⟨"a", 100, "Insertion"⟩]) "Omission" +
        matchedCount (finalWords ["a"] [⟨"a", 100, "Insertion"⟩]) =
        (["a"] : List String).length ∧
      countErrorType (finalWords ["a"] [⟨"a", 100, "Insertion"⟩]) "Insertion" +
        matchedCount (finalWords ["a"] [⟨"a", 100, "Insertion"⟩]) =
        ([⟨"a", 100, "Insertion"⟩] : List AWord).length) := by
  decide

/-- C4 (amended): when every recognized word arrives with error type
`"None"` (no pre-marked miscues), the aligned sequence satisfies the counting
invariant: Omission-count + match-count equals the reference length and
Insertion-count + match-count equals the recognized length. -/
theorem align_counts_invariant (refW : List String) (recW : List AWord)
    (h : ∀ w ∈ recW, w.error_type = "None") :
    countErrorType (finalWords refW recW) "Omission" +
      matchedCount (finalWords refW recW) = refW.length ∧
    countErrorType (finalWords refW recW) "Insertion" +
      matchedCount (finalWords refW recW) = recW.length :=
  align_counts_invariant_aux refW recW h

/-- C4 witness. -/
theorem align_counts_invariant_witness :
    countErrorType (finalWords ["x", "y"] [⟨"y", 80, "None"⟩]) "Omission" +
      matchedCount (finalWords ["x", "y"] [⟨"y", 80, "None"⟩]) = 2 ∧
    countErrorType (finalWords ["x", "y"] [⟨"y", 80, "None"⟩]) "Insertion" +
      matchedCount (finalWords ["x", "y"] [⟨"y", 80, "None"⟩]) = 1 :=
  align_counts_invariant ["x", "y"] [⟨"y", 80, "None"⟩]
    (by intro w hw; rw [List.mem_singleton] at hw; subst hw; rfl)

/-- C5 (counterexample): aligning a sequence against itself is not the
identity on error classification when a recognized word is pre-marked: a
word already carrying `"Insertion"` keeps it through the `equal` branch, so
the self-alignment has a nonzero Insertion count. -/
theorem align_self_identity_cex :
    ¬(countErrorType (finalWords ["b"] [⟨"b", 50, "Insertion"⟩]) "Insertion" = 0 ∧
      countErrorType (finalWords ["b"] [⟨"b", 50, "Insertion"⟩]) "Omission" = 0) := by
  decide

/-- C5 (amended): aligning a recognized sequence against its own (lowercased)
texts yields zero Insertions and zero Omissions, provided no recognized word
is already pre-marked `"Insertion"` or `"Omission"`. -/
theorem align_self_identity (recW : List AWord)
    (h : ∀ w ∈ recW, w.error_type ≠ "Insertion" ∧ w.error_type ≠ "Omission") :
    countErrorType (finalWords (recW.map fun w => lowerStr w.word) recW)
      "Insertion" = 0 ∧
    countErrorType (finalWords (recW.map fun w => lowerStr w.word) recW)
      "Omission" = 0 := by
  rw [finalWords_self]
  constructor
  · rw [countErrorType]
    exact List.countP_eq_zero.mpr fun w hw => by simp [(h w hw).1]
  · rw [countErrorType]
    exact List.countP_eq_zero.mpr fun w hw => by simp [(h w hw).2]

/-- C5 witness. -/
theorem align_self_identity_witness :
    countErrorType (finalWords (([⟨"Hi", 90, "None"⟩] : List AWord).map
      fun w => lowerStr w.word) [⟨"Hi", 90, "None"⟩]) "Insertion" = 0 ∧
    countErrorType (finalWords (([⟨"Hi", 90, "None"⟩] : List AWord).map
      fun w => lowerStr w.word) [⟨"Hi", 90, "None"⟩]) "Omission" = 0 :=
  align_self_identity [⟨"Hi", 90, "None"⟩]
    (by intro w hw; rw [List.mem_singleton] at hw; subst hw
        exact ⟨by decide, by decide⟩)

/-- C6: for a non-empty reference word list the completeness score equals the
count of `"None"`-typed words over the reference word count times 100,
clamped to at most 100, and that value lies in [0, 100]. -/
theorem completeness_clamped (final_words : List AWord) (n : ℕ) (h : 0 < n) :
    paCompletenessScore final_words n =
      some (min ((countErrorType final_words "None" : ℚ) / (n : ℚ) * 100) 100) ∧
    0 ≤ min ((countErrorType final_words "None" : ℚ) / (n : ℚ) * 100) 100 ∧
    min ((countErrorType final_words "None" : ℚ) / (n : ℚ) * 100) 100 ≤ 100 := by
  have hne : ¬(n = 0) := by omega
  have hc : (0 : ℚ) ≤ (countErrorType final_words "None" : ℚ) / (n : ℚ) * 100 := by
    positivity
  refine ⟨?_, le_min hc (by norm_num), min_le_right _ _⟩
  simp only [paCompletenessScore, if_neg hne]
  congr 1

/-- C6 witness. -/
theorem completeness_clamped_witness :
    paCompletenessScore [] 2 =
      some (min ((countErrorType [] "None" : ℚ) / (2 : ℚ) * 100) 100) :=
  (completeness_clamped [] 2 (by norm_num)).1

/-- C7 (counterexample): the 1.1 floor for the "Fast Native Speaker" tone is
not applied when no speed is configured: the rate is then 1.0, below 1.1. -/
theorem speaking_rate_floor_cex :
    get_speaking_rate_from_config
      (some { botTone := some "Fast Native Speaker" }) = 1 ∧
    ¬((11 : ℚ) / 10 ≤ get_speaking_rate_from_config
      (some { botTone := some "Fast Native Speaker" })) := by
  have h1 : get_speaking_rate_from_config
      (some { botTone := some "Fast Native Speaker" }) = 1 := rfl
  refine ⟨h1, ?_⟩
  rw [h1]
  norm_num

/-- C7 (amended): the derived speaking rate is 0.8/1.0/1.2 for
slow/normal/fast when the tone is not "Fast Native Speaker", and 1.0 whenever
no speed (or no config) is given — the floor is skipped in that case; when
the tone is "Fast Native Speaker" and a speed is given, the rate is at least
1.1: 1.1 for slow and normal, and 1.2 for fast. -/
theorem speaking_rate_spec (cfg : SpeakingConfig) :
    get_speaking_rate_from_config none = 1 ∧
    (cfg.botSpeed = none → get_speaking_rate_from_config (some cfg) = 1) ∧
    (cfg.botTone ≠ some "Fast Native Speaker" →
      (cfg.botSpeed = some "slow" →
        get_speaking_rate_from_config (some cfg) = 8 / 10) ∧
      (cfg.botSpeed = some "normal" →
        get_speaking_rate_from_config (some cfg) = 1) ∧
      (cfg.botSpeed = some "fast" →
        get_speaking_rate_from_config (some cfg) = 12 / 10)) ∧
    (cfg.botTone = some "Fast Native Speaker" →
      (cfg.botSpeed = some "slow" →
        get_speaking_rate_from_config (some cfg) = 11 / 10) ∧
      (cfg.botSpeed = some "normal" →
        get_speaking_rate_from_config (some cfg) = 11 / 10) ∧
      (cfg.botSpeed = some "fast" →
        get_speaking_rate_from_config (some cfg) = 12 / 10) ∧
      (∀ s, cfg.botSpeed = some s → (s = "slow" ∨ s = "normal" ∨ s = "fast") →
        11 / 10 ≤ get_speaking_rate_from_config (some cfg))) := by
  refine ⟨rfl, ?_, ?_, ?_⟩
  · intro hs
    simp only [get_speaking_rate_from_config, hs]
  · intro ht
    refine ⟨?_, ?_, ?_⟩ <;> intro hs <;>
      rw [rate_compute cfg _ hs, if_neg ht]
    · exact speed_to_rate_slow
    · exact speed_to_rate_normal
    · exact speed_to_rate_fast
  · intro ht
    refine ⟨?_, ?_, ?_, ?_⟩
    · intro hs
      rw [rate_compute cfg _ hs, if_pos ht, speed_to_rate_slow]
      exact max_eq_right (by norm_num)
    · intro hs
      rw [rate_compute cfg _ hs, if_pos ht, speed_to_rate_normal]
      exact max_eq_right (by norm_num)
    · intro hs
      rw [rate_compute cfg _ hs, if_pos ht, speed_to_rate_fast]
      exact max_eq_left (by norm_num)
    · intro s hs hmem
      rw [rate_compute cfg _ hs, if_pos ht]
      rcases hmem with rfl | rfl | rfl
      · rw [speed_to_rate_slow]
        exact le_max_right _ _
      · rw [speed_to_rate_normal]
        exact le_max_right _ _
      · rw [speed_to_rate_fast]
        exact le_max_right _ _

/-- C7 witness. -/
theorem speaking_rate_spec_witness :
    get_speaking_rate_from_config
      (some { botTone := some "Fast Native Speaker",
              botSpeed := some "slow" }) = 11 / 10 :=
  ((speaking_rate_spec
      { botTone := some "Fast Native Speaker", botSpeed := some "slow" }).2.2.2
    rfl).1 rfl

/-- C8: the grammar-feedback function always returns a grammar score in
[0, 100]; in particular a parsed collaborator score (possibly below 0 or
above 100) is clamped into [0, 100], and every failure branch reports a score
in that range. -/
theorem grammar_score_clamped :
    (∀ (t : String) (llm : GrammarLLMResult),
      0 ≤ (grammar_feedback_from_gemini t llm).1 ∧
      (grammar_feedback_from_gemini t llm).1 ≤ 100) ∧
    (∀ (t : String) (s : ℚ) (fb : String) (ms : List Mistake) (tr : String),
      pyStrip t ≠ "" →
      (grammar_feedback_from_gemini t (.parsed s fb ms tr)).1 =
        max 0 (min 100 s)) := by
  constructor
  · intro t llm
    unfold grammar_feedback_from_gemini
    split
    · exact ⟨le_refl 0, by norm_num⟩
    · cases llm with
      | allFailed => exact ⟨le_refl 0, by norm_num⟩
      | parseError => exact ⟨by norm_num, by norm_num⟩
      | callError => exact ⟨le_refl 0, by norm_num⟩
      | parsed s fb ms tr =>
        exact ⟨le_max_left 0 _, max_le (by norm_num) (min_le_left _ _)⟩
  · intro t s fb ms tr ht
    unfold grammar_feedback_from_gemini
    rw [if_neg ht]

/-- C8 witness. -/
theorem grammar_score_clamped_witness :
    (grammar_feedback_from_gemini "ok" (.parsed 150 "tip" [] "d")).1 =
      max 0 (min 100 150) :=
  grammar_score_clamped.2 "ok" 150 "tip" [] "d" (by decide)

/-- C9: in the short-circuit response the `user_transcript` field is the
(stripped) recognizer transcript when that is non-empty, and otherwise the
(stripped) client-supplied transcript. -/
theorem short_circuit_user_transcript (req : ChatTurnRequest)
    (stt_text : String) (w : ExternalWorld)
    (h : (pyStrip (req.user_transcript.getD "") ≠ "" ∧
          calculate_transcript_similarity (pyStrip (req.user_transcript.getD ""))
            (pyStrip stt_text) < 9 / 10) ∨ pyStrip stt_text = "") :
    (process_chat_turn req stt_text w).map (fun p => p.1.user_transcript) =
      some (if pyStrip stt_text ≠ "" then pyStrip stt_text
        else pyStrip (req.user_transcript.getD "")) := by
  simp only [process_chat_turn]
  rw [if_pos h]
  rfl

/-- C9 witness. -/
theorem short_circuit_user_transcript_witness :
    (process_chat_turn
        { context := [], audio_base64 := "", user_transcript := some "hey",
          config := none } " "
        { recognized_words := [], fluency_scores := [], durations := [],
          audio := .broken, grammar_llm := .allFailed, reply_llm := .allFailed,
          tts_result := fun _ _ => none }).map
      (fun p => p.1.user_transcript) = some "hey" := by
  refine short_circuit_user_transcript _ _ _ (Or.inr ?_)
  decide

/-- C10: in the full-assessment path the response's `improvement_tip` is the
grammar collaborator's tip when that tip is non-empty, and otherwise the
bot's conversational reply text. -/
theorem improvement_tip_fallback (req : ChatTurnRequest) (stt_text : String)
    (w : ExternalWorld)
    (hgate : ¬((pyStrip (req.user_transcript.getD "") ≠ "" ∧
          calculate_transcript_similarity (pyStrip (req.user_transcript.getD ""))
            (pyStrip stt_text) < 9 / 10) ∨ pyStrip stt_text = ""))
    (hpa : ∃ r, pronunciation_assessment_from_file (pyStrip stt_text)
        w.recognized_words w.fluency_scores w.durations = some r) :
    (process_chat_turn req stt_text w).map
        (fun p => p.1.feedback.improvement_tip) =
      some (if (grammar_feedback_from_gemini (pyStrip stt_text)
            w.grammar_llm).2.1 ≠ ""
        then (grammar_feedback_from_gemini (pyStrip stt_text) w.grammar_llm).2.1
        else (generate_gemini_response w.reply_llm).1) := by
  obtain ⟨⟨acc, comp, flu, fw⟩, hpa⟩ := hpa
  simp only [process_chat_turn]
  rw [if_neg hgate, hpa]
  rfl

/-- C10 witness. -/
theorem improvement_tip_fallback_witness :
    (process_chat_turn
        { context := [], audio_base64 := "", user_transcript := none,
          config := none } "hello"
        { recognized_words := [⟨"hello", 100, "None"⟩], fluency_scores := [100],
          durations := [50], audio := .broken,
          grammar_llm := .parsed 80 "Use the past tense." [] "xin chào",
          reply_llm := .parsed "Hi there" "Chào bạn",
          tts_result := fun _ _ => some "AUDIO" }).map
      (fun p => p.1.feedback.improvement_tip) = some "Use the past tense." :=
  improvement_tip_fallback _ _ _ (by decide) ⟨_, rfl⟩

end ToeicAI
